import Mathlib

/-!
Verification development for the `binetic` control plane.

The definitions below are a shallow embedding of the Python sources:
`security/policies.py`, `security/kernel.py`, `security/keys.py`,
`security/auth.py`, `core/operators.py`, `core/network.py`,
`core/memtools.py`, `core/discovery.py`.

Modelling conventions, used throughout:
* Python dicts become association lists (`lookupA` / `insertA` / `eraseA`
  mirror `d[k]`, `d[k] = v`, `del d[k]`).
* Wall-clock time (`time.time()`) is an explicit `Int` parameter `now`.
* Float-valued statistics become `ℚ`; the decimal literals of the source
  (`0.1`, `0.2`, `0.95`, ...) are taken at their exact decimal value.
* Randomness (`secrets.token_urlsafe` / `token_hex`) becomes a fresh-nonce
  counter carried in the state; sha-256 is modelled as the identity on
  those nonces (collision-freeness assumption).
* `async` is erased: every coroutine becomes a pure function on explicit
  state; outbound I/O (HTTP, MCP) becomes an oracle argument, and the
  functions additionally report whether the oracle was consulted.
* Python exceptions crossing a modelled boundary become `Except` /
  `Option` results.
-/

namespace Binetic

/-! ## Association lists (Python `dict` semantics) -/

/-- Lookup in an association list, first binding wins (`d.get(k)` / `d[k]`). -/
def lookupA {κ α : Type} [DecidableEq κ] : List (κ × α) → κ → Option α
  | [], _ => none
  | (k', v) :: t, k => if k' = k then some v else lookupA t k

/-- Replace-or-append update (`d[k] = v`): keeps dict insertion order. -/
def insertA {κ α : Type} [DecidableEq κ] : List (κ × α) → κ → α → List (κ × α)
  | [], k, v => [(k, v)]
  | (k', v') :: t, k, v =>
      if k' = k then (k, v) :: t else (k', v') :: insertA t k v

/-- Deletion (`del d[k]`). -/
def eraseA {κ α : Type} [DecidableEq κ] (l : List (κ × α)) (k : κ) : List (κ × α) :=
  l.filter (fun p => p.1 ≠ k)

/-- Update the value stored at `k`, if present (mutation of the object
behind `d[k]` in the source). -/
def modifyA {κ α : Type} [DecidableEq κ] (l : List (κ × α)) (k : κ) (f : α → α) :
    List (κ × α) :=
  match lookupA l k with
  | none => l
  | some v => insertA l k (f v)

/-! ## String primitives

`String.startsWith` / `String.toUpper` are backed by extern code whose
Lean models do not reduce inside the kernel, so the embedding uses its
own character-list implementations of Python's `str.startswith` and
`str.upper`. -/

/-- Character-list core of `str.startswith`. -/
def chars_start_with : List Char → List Char → Bool
  | _, [] => true
  | [], _ :: _ => false
  | c :: cs, p :: ps => c = p && chars_start_with cs ps

/-- Python `str.startswith`. -/
def starts_with (s pre : String) : Bool :=
  chars_start_with s.data pre.data

/-- Python `str.upper` (ASCII is all the source compares). -/
def to_upper (s : String) : String :=
  String.mk (s.data.map Char.toUpper)

/-! ## `security/policies.py` -/

/-- `PermissionLevel` enum from `security/policies.py`. -/
inductive PermissionLevel
  | NONE
  | READ
  | EXECUTE
  | WRITE
  | ADMIN
  | MASTER
  deriving DecidableEq, Repr

/-- Numeric value of a permission level (`PermissionLevel(Enum)` values 0-5). -/
def PermissionLevel.value : PermissionLevel → Nat
  | .NONE => 0
  | .READ => 1
  | .EXECUTE => 2
  | .WRITE => 3
  | .ADMIN => 4
  | .MASTER => 5

/-- `ResourceType` enum from `security/policies.py`. -/
inductive ResourceType
  | OPERATOR
  | SLOT
  | NETWORK
  | KEY
  | POLICY
  | USER
  | AUDIT
  | SYSTEM
  deriving DecidableEq, Repr

/-- `Permission` dataclass: `resource_id = none` is the wildcard. -/
structure Permission where
  resource_type : ResourceType
  resource_id : Option String
  level : PermissionLevel
  deriving DecidableEq, Repr

/-- `RateLimit` dataclass (`max_concurrent` is never read by the verified
paths but is kept for fidelity). -/
structure RateLimit where
  requests_per_minute : Nat := 60
  requests_per_hour : Nat := 1000
  requests_per_day : Nat := 10000
  max_concurrent : Nat := 10
  deriving DecidableEq, Repr

/-- `Restriction` dataclass (`require_2fa` / `allowed_origins` are never read
by the verified paths and are omitted). -/
structure Restriction where
  ip_whitelist : List String := []
  ip_blacklist : List String := []
  valid_from : Option Int := none
  valid_until : Option Int := none
  deriving DecidableEq, Repr

/-- `Restriction.is_valid_time`, with `time.time()` as the explicit `now`.
The Python truthiness test `if self.valid_from` is `Option.isSome` here
(a float timestamp `0.0` is falsy in Python, but `0` is not a meaningful
wall-clock instant, so the difference is immaterial). -/
def Restriction.is_valid_time (r : Restriction) (now : Int) : Bool :=
  if r.valid_from.elim false (fun vf => decide (now < vf)) then false
  else if r.valid_until.elim false (fun vu => decide (now > vu)) then false
  else true

/-- `Restriction.is_valid_ip`. -/
def Restriction.is_valid_ip (r : Restriction) (ip : String) : Bool :=
  if !r.ip_blacklist.isEmpty && r.ip_blacklist.contains ip then false
  else if !r.ip_whitelist.isEmpty && !r.ip_whitelist.contains ip then false
  else true

/-- `Policy` dataclass: the fields read by the verified code paths. -/
structure Policy where
  policy_id : String
  name : String
  permissions : List Permission := []
  allowed_operators : List String := []
  denied_operators : List String := []
  allowed_endpoints : List String := []
  denied_endpoints : List String := []
  rate_limits : RateLimit := {}
  restrictions : Restriction := {}
  is_active : Bool := true
  deriving DecidableEq, Repr

/-- `Policy.can_access_operator`. -/
def Policy.can_access_operator (p : Policy) (operator_id : String) : Bool :=
  if p.denied_operators.contains operator_id then false
  else if !p.allowed_operators.isEmpty && !p.allowed_operators.contains operator_id then false
  else true

/-- `Policy.can_access_endpoint` (string-prefix matching). -/
def Policy.can_access_endpoint (p : Policy) (endpoint : String) : Bool :=
  if p.denied_endpoints.any (fun e => starts_with endpoint e) then false
  else if !p.allowed_endpoints.isEmpty then
    p.allowed_endpoints.any (fun e => starts_with endpoint e)
  else true

/-- `Policy.get_permission_level`: maximum level over matching permissions. -/
def Policy.get_permission_level (p : Policy) (rt : ResourceType)
    (rid : Option String) : PermissionLevel :=
  p.permissions.foldl
    (fun max_level perm =>
      if perm.resource_type = rt ∧ (perm.resource_id = none ∨ perm.resource_id = rid)
      then (if perm.level.value > max_level.value then perm.level else max_level)
      else max_level)
    PermissionLevel.NONE

/-- The `PolicyEngine._policies` dict (`storage=None`, as built by
`get_policy_engine`). Keys are the dict keys, values the `Policy` objects. -/
structure PolicyEngineState where
  policies : List (String × Policy)
  deriving Repr

/-- `PolicyEngine.get_policy` with no storage backend. -/
def get_policy (engine : PolicyEngineState) (policy_id : String) : Option Policy :=
  lookupA engine.policies policy_id

/-- `PolicyEngine.check_access`: `context` is reduced to the `ip` entry the
callers pass; `now` stands for `time.time()` inside the restrictions check.
An `ip` of `none` or `""` mirrors the falsy `client_ip` skip. The final
reason string interpolates the two level names in the source; no verified
claim reads it, so it is abbreviated to a constant here. -/
def check_access (engine : PolicyEngineState) (policy_id : String)
    (rt : ResourceType) (rid : Option String) (required : PermissionLevel)
    (ip : Option String) (now : Int) : Bool × String :=
  match get_policy engine policy_id with
  | none => (false, "Policy not found")
  | some policy =>
      if !policy.is_active then (false, "Policy is inactive")
      else if !policy.restrictions.is_valid_time now then
        (false, "Outside valid time window")
      else
        let client_ip := ip.getD ""
        if client_ip ≠ "" && !policy.restrictions.is_valid_ip client_ip then
          (false, "IP not allowed")
        else
          let level := policy.get_permission_level rt rid
          if level.value < required.value then
            (false, "Insufficient permission")
          else (true, "Access granted")

/-- `PolicyEngine.check_operator_access`. -/
def check_operator_access (engine : PolicyEngineState) (policy_id operator_id : String)
    (ip : Option String) (now : Int) : Bool × String :=
  match get_policy engine policy_id with
  | none => (false, "Policy not found")
  | some policy =>
      if !policy.can_access_operator operator_id then
        (false, "Operator " ++ operator_id ++ " not allowed by policy")
      else
        check_access engine policy_id ResourceType.OPERATOR (some operator_id)
          PermissionLevel.EXECUTE ip now

/-- HTTP-verb to permission-level map of `check_endpoint_access`
(`method_levels.get(method.upper(), READ)`). -/
def method_level (method : String) : PermissionLevel :=
  let m := to_upper method
  if m = "GET" then .READ
  else if m = "HEAD" then .READ
  else if m = "POST" then .EXECUTE
  else if m = "PUT" then .WRITE
  else if m = "PATCH" then .WRITE
  else if m = "DELETE" then .ADMIN
  else .READ

/-- `PolicyEngine.check_endpoint_access`. -/
def check_endpoint_access (engine : PolicyEngineState) (policy_id endpoint method : String)
    (ip : Option String) (now : Int) : Bool × String :=
  match get_policy engine policy_id with
  | none => (false, "Policy not found")
  | some policy =>
      if !policy.can_access_endpoint endpoint then
        (false, "Endpoint " ++ endpoint ++ " not allowed by policy")
      else
        check_access engine policy_id ResourceType.SYSTEM (some endpoint)
          (method_level method) ip now

/-! ## `security/kernel.py` -/

/-- `KernelDecision` dataclass. -/
structure KernelDecision where
  allowed : Bool
  reason : String
  policy_id : Option String := none
  deriving DecidableEq, Repr

/-- Actor context dict handed to the kernel enforcer: the fields it reads
(`kernel_bypass`, `ip`) plus the `actor_policy_id` argument. -/
structure ActorCtx where
  kernel_bypass : Bool := false
  ip : Option String := none
  actor_policy_id : Option String := none
  deriving DecidableEq, Repr

/-- `KernelPolicyEnforcer._can_bypass`. -/
def can_bypass (engine : PolicyEngineState) (ctx : ActorCtx) (now : Int) : Bool :=
  match ctx.actor_policy_id with
  | none => false
  | some pid =>
      if !ctx.kernel_bypass then false
      else (check_access engine pid ResourceType.SYSTEM (some "kernel")
        PermissionLevel.MASTER ctx.ip now).1

/-- `KernelPolicyEnforcer.list_kernel_policies(active_only=True)`: the
policies whose dict key starts with `kpol_`. -/
def list_kernel_policies_active (engine : PolicyEngineState) : List Policy :=
  ((engine.policies.filter (fun p => starts_with p.1 "kpol_")).map Prod.snd).filter
    (fun p => p.is_active)

/-- The transport guard of `enforce_operator_invoke` /
`enforce_discovery_register`: a literal string-prefix test, not a host
comparison. -/
def insecure_transport (endpoint : String) : Bool :=
  starts_with endpoint "http://" &&
    !(starts_with endpoint "http://localhost" ||
      starts_with endpoint "http://127.0.0.1" ||
      starts_with endpoint "http://0.0.0.0")

/-- First kernel-policy failure in the `enforce_operator_invoke` loop body:
`check_operator_access` then `check_endpoint_access` per active kernel
policy, stopping at the first deny. -/
def kernel_policy_loop (engine : PolicyEngineState) (operator_id endpoint method : String)
    (ip : Option String) (now : Int) : List Policy → KernelDecision
  | [] => { allowed := true, reason := "Allowed" }
  | p :: rest =>
      let op_check := check_operator_access engine p.policy_id operator_id ip now
      if !op_check.1 then
        { allowed := false, reason := "Denied by " ++ p.policy_id ++ ": " ++ op_check.2,
          policy_id := some p.policy_id }
      else
        let ep_check := check_endpoint_access engine p.policy_id endpoint method ip now
        if !ep_check.1 then
          { allowed := false, reason := "Denied by " ++ p.policy_id ++ ": " ++ ep_check.2,
            policy_id := some p.policy_id }
        else kernel_policy_loop engine operator_id endpoint method ip now rest

/-- `KernelPolicyEnforcer.enforce_operator_invoke`. -/
def enforce_operator_invoke (engine : PolicyEngineState)
    (operator_id endpoint method : String) (ctx : ActorCtx) (now : Int) : KernelDecision :=
  if can_bypass engine ctx now then
    { allowed := true, reason := "Kernel bypass granted" }
  else if insecure_transport endpoint then
    { allowed := false, reason := "Insecure transport: HTTPS required" }
  else
    kernel_policy_loop engine operator_id endpoint method ctx.ip now
      (list_kernel_policies_active engine)

/-- Kernel-policy loop of `enforce_discovery_register`: a `check_access` on
`SYSTEM/"discovery:"++capability_type` at EXECUTE, then `check_endpoint_access`. -/
def discovery_policy_loop (engine : PolicyEngineState) (capability_type endpoint method : String)
    (ip : Option String) (now : Int) : List Policy → KernelDecision
  | [] => { allowed := true, reason := "Allowed" }
  | p :: rest =>
      let acc := check_access engine p.policy_id ResourceType.SYSTEM
        (some ("discovery:" ++ capability_type)) PermissionLevel.EXECUTE ip now
      if !acc.1 then
        { allowed := false, reason := "Denied by " ++ p.policy_id ++ ": " ++ acc.2,
          policy_id := some p.policy_id }
      else
        let ep_check := check_endpoint_access engine p.policy_id endpoint method ip now
        if !ep_check.1 then
          { allowed := false, reason := "Denied by " ++ p.policy_id ++ ": " ++ ep_check.2,
            policy_id := some p.policy_id }
        else discovery_policy_loop engine capability_type endpoint method ip now rest

/-- `KernelPolicyEnforcer.enforce_discovery_register`. -/
def enforce_discovery_register (engine : PolicyEngineState)
    (capability_type endpoint method : String) (ctx : ActorCtx) (now : Int) : KernelDecision :=
  if can_bypass engine ctx now then
    { allowed := true, reason := "Kernel bypass granted" }
  else if insecure_transport endpoint then
    { allowed := false, reason := "Insecure transport: HTTPS required" }
  else
    discovery_policy_loop engine capability_type endpoint method ctx.ip now
      (list_kernel_policies_active engine)

/-- The `kpol_default` policy installed by
`KernelPolicyEnforcer._ensure_default_policy`: MASTER on every resource
type, empty allow/deny lists, default restrictions. -/
def kpol_default : Policy :=
  { policy_id := "kpol_default"
    name := "Kernel Default"
    permissions :=
      [ ⟨ResourceType.SYSTEM, none, PermissionLevel.MASTER⟩,
        ⟨ResourceType.OPERATOR, none, PermissionLevel.MASTER⟩,
        ⟨ResourceType.NETWORK, none, PermissionLevel.MASTER⟩,
        ⟨ResourceType.SLOT, none, PermissionLevel.MASTER⟩,
        ⟨ResourceType.AUDIT, none, PermissionLevel.MASTER⟩,
        ⟨ResourceType.KEY, none, PermissionLevel.MASTER⟩,
        ⟨ResourceType.POLICY, none, PermissionLevel.MASTER⟩,
        ⟨ResourceType.USER, none, PermissionLevel.MASTER⟩ ] }

/-- A policy-engine state holding only the default kernel policy (the state
right after `get_kernel_enforcer()` on a fresh engine, restricted to the
kernel-relevant entry). -/
def default_kernel_engine : PolicyEngineState :=
  { policies := [("kpol_default", kpol_default)] }

/-- Characters after the first `://`, empty when there is none. -/
def after_scheme : List Char → List Char
  | ':' :: '/' :: '/' :: rest => rest
  | _ :: rest => after_scheme rest
  | [] => []

/-- Host part of a URL, for stating the claim's "host" reading of the
transport invariant: the text after `://` up to the first `/`, stripped of
a `:port` suffix. -/
def urlHost (url : String) : String :=
  String.mk (((after_scheme url.data).takeWhile (fun c => c ≠ '/')).takeWhile
    (fun c => c ≠ ':'))

/-! ## `core/operators.py` -/

/-- `OperatorSignature`: the fields read by the verified code paths.
Request templating, schemas and extractor tables feed only the HTTP
dispatch, which is behind the I/O oracle below, and are omitted. -/
structure OperatorSignature where
  operator_id : String
  endpoint_url : String
  method : String
  avg_latency_ms : ℚ := 0
  success_rate : ℚ := 1
  consistency_score : ℚ := 1
  call_count : Nat := 0
  last_used : Int := 0
  side_effects : Bool := true
  deriving DecidableEq, Repr

/-- `OperatorSignature.update_stats`: the dataclass-level moving-average
update with learning rate `alpha = 0.1`, the `avg_latency_ms == 0`
direct-set special case, and the consistency heuristic. -/
def update_stats (op : OperatorSignature) (success : Bool) (latency_ms : ℚ) :
    OperatorSignature :=
  let call_count := op.call_count + 1
  let alpha : ℚ := 1/10
  let current_success : ℚ := if success then 1 else 0
  let success_rate := (1 - alpha) * op.success_rate + alpha * current_success
  let avg_latency_ms :=
    if op.avg_latency_ms = 0 then latency_ms
    else (1 - alpha) * op.avg_latency_ms + alpha * latency_ms
  let consistency_score := success_rate * (if call_count > 5 then 1 else 1/2)
  { op with
      call_count := call_count
      success_rate := success_rate
      avg_latency_ms := avg_latency_ms
      consistency_score := consistency_score }

/-- `OperatorRegistry._update_stats`: calls `update_stats`, sets
`last_used = now`, then applies a second latency EMA with `alpha = 0.2`
and a second success-rate update `0.95 * rate + (0.05 if success else 0)`
(the persistence call in between touches no statistic). -/
def registry_update_stats (op : OperatorSignature) (success : Bool)
    (latency_ms : ℚ) (now : Int) : OperatorSignature :=
  let op := update_stats op success latency_ms
  let op := { op with last_used := now }
  let alpha : ℚ := 2/10
  let op := { op with
    avg_latency_ms := alpha * latency_ms + (1 - alpha) * op.avg_latency_ms }
  { op with
    success_rate := 95/100 * op.success_rate + (if success then 5/100 else 0) }

/-- Modelled from the claim's reading of spec §4.4 step 7 (for comparison
with `registry_update_stats`): a single latency EMA with `alpha = 0.2`, a
single success EMA with `alpha = 0.05`, `call_count += 1`,
`last_used = now`, and `consistency_score` computed from the resulting
success rate. -/
def update_stats_spec (op : OperatorSignature) (success : Bool)
    (latency_ms : ℚ) (now : Int) : OperatorSignature :=
  let success_rate := 95/100 * op.success_rate + (if success then 5/100 else 0)
  { op with
      call_count := op.call_count + 1
      last_used := now
      avg_latency_ms := 2/10 * latency_ms + 8/10 * op.avg_latency_ms
      success_rate := success_rate
      consistency_score := success_rate * (if op.call_count + 1 ≤ 5 then 1/2 else 1) }

/-- `OperatorInvocation`: `invocation_id`, `latency_ms` and `timestamp`
(randomness and wall clock, read by no verified claim) are omitted. -/
structure OperatorInvocation where
  operator_id : String
  inputs : List (String × String)
  outputs : Option (List (String × String)) := none
  success : Bool := false
  error : Option String := none
  deriving DecidableEq, Repr

/-- Outcome of the outbound dispatch of `OperatorRegistry.invoke`
(HTTP or MCP), as an oracle: a status/body response, an
`asyncio.TimeoutError`, or any other raised exception. -/
inductive HttpResult
  | resp (status : Nat) (body : String)
  | timeoutErr
  | exn (msg : String)
  deriving DecidableEq, Repr

/-- `OperatorRegistry.invoke`, parameterized over the kernel-enforcement
call (so that an enforcement-raised exception, the `except` arm of the
inner `try`, is expressible as `Except.error`) and over the outbound
dispatch oracle. The second component of the result records whether any
outbound I/O was performed. Output extraction is collapsed to the `raw`
entry the source always includes. -/
def invoke_with (reg : List (String × OperatorSignature))
    (enforcer : String → String → String → Except String KernelDecision)
    (operator_id : String) (inputs : List (String × String))
    (http : HttpResult) : OperatorInvocation × Bool :=
  match lookupA reg operator_id with
  | none =>
      ({ operator_id := operator_id, inputs := inputs, success := false,
         error := some "Operator not found" }, false)
  | some op =>
      match enforcer op.operator_id op.endpoint_url op.method with
      | .error e =>
          ({ operator_id := operator_id, inputs := inputs, success := false,
             error := some ("Kernel enforcement error: " ++ e) }, false)
      | .ok decision =>
          if !decision.allowed then
            ({ operator_id := operator_id, inputs := inputs, success := false,
               error := some decision.reason }, false)
          else
            match http with
            | .resp status body =>
                ({ operator_id := operator_id, inputs := inputs,
                   success := decide (200 ≤ status ∧ status < 300),
                   outputs := some [("raw", body)], error := none }, true)
            | .timeoutErr =>
                ({ operator_id := operator_id, inputs := inputs, success := false,
                   error := some "Timeout" }, true)
            | .exn m =>
                ({ operator_id := operator_id, inputs := inputs, success := false,
                   error := some m }, true)

/-- `OperatorRegistry.invoke` with the enforcement call actually made
against `KernelPolicyEnforcer.enforce_operator_invoke` (the non-raising
run; the `enforcement` dict is `ctx`). -/
def invoke (reg : List (String × OperatorSignature)) (engine : PolicyEngineState)
    (operator_id : String) (inputs : List (String × String)) (ctx : ActorCtx)
    (now : Int) (http : HttpResult) : OperatorInvocation × Bool :=
  invoke_with reg
    (fun oid ep m => Except.ok (enforce_operator_invoke engine oid ep m ctx now))
    operator_id inputs http

/-! ## `security/keys.py`

Raw secrets, their sha-256 hashes and key ids are modelled as naturals
drawn from a fresh-nonce counter: `secrets.token_urlsafe` /
`secrets.token_hex` become "take the counter, then increment", and the
hash of a raw secret is the raw value itself (sha-256 treated as
injective). The `storage` backend is `None`, as in `get_key_manager()`
and the test suite. -/

/-- `KeyScope` enum. -/
inductive KeyScope
  | MASTER
  | ADMIN
  | USER
  | SERVICE
  | READONLY
  | CUSTOM
  deriving DecidableEq, Repr

/-- `KeyStatus` enum. -/
inductive KeyStatus
  | ACTIVE
  | SUSPENDED
  | REVOKED
  | EXPIRED
  deriving DecidableEq, Repr

/-- `APIKey`: the fields read by the verified code paths (`key_prefix`,
emails, names, timestamps other than `expires_at`, and rate-limit
overrides are carried nowhere relevant and are omitted). -/
structure APIKey where
  key_id : Nat
  key_hash : Nat
  owner_id : String
  policy_id : String
  scope : KeyScope
  status : KeyStatus := .ACTIVE
  expires_at : Option Int := none
  use_count : Nat := 0
  deriving DecidableEq, Repr

/-- `APIKey.is_valid` with `time.time()` as `now`. -/
def APIKey.is_valid (k : APIKey) (now : Int) : Bool × String :=
  if k.status = .REVOKED then (false, "Key has been revoked")
  else if k.status = .SUSPENDED then (false, "Key is suspended")
  else if k.status = .EXPIRED then (false, "Key has expired")
  else
    match k.expires_at with
    | some e => if now > e then (false, "Key has expired") else (true, "OK")
    | none => (true, "OK")

/-- `KeyManager` state: `_keys`, `_keys_by_hash`, the policy-engine ids
visible through `get_policy` (what `create_key` validates against), and
the fresh-nonce counter standing for the random generators. -/
structure KeyManagerState where
  keys : List (Nat × APIKey) := []
  keys_by_hash : List (Nat × Nat) := []
  policies : List String := []
  nonce : Nat := 0
  deriving DecidableEq, Repr

/-- `KeyManager.create_key`. Returns `none` when the policy lookup fails
(the `ValueError` raise, which leaves the manager untouched); otherwise
the new `APIKey`, its raw secret, and the updated state. The raw secret
and the key id both consume the nonce. -/
def create_key (st : KeyManagerState) (owner_id policy_id : String)
    (scope : KeyScope) (expires_at : Option Int) :
    Option (APIKey × Nat) × KeyManagerState :=
  if policy_id ∈ st.policies then
    let raw_key := st.nonce
    let key_id := st.nonce
    let api_key : APIKey :=
      { key_id := key_id, key_hash := raw_key, owner_id := owner_id,
        policy_id := policy_id, scope := scope, expires_at := expires_at }
    (some (api_key, raw_key),
      { st with
          keys := insertA st.keys key_id api_key
          keys_by_hash := insertA st.keys_by_hash raw_key key_id
          nonce := st.nonce + 1 })
  else (none, st)

/-- `KeyManager.verify_key` with no storage backend: hash the raw secret
(identity here), look it up, fetch the key, apply `is_valid`. The
`startswith("fgk_")` format gate is vacuous for modelled raws. -/
def verify_key (st : KeyManagerState) (raw_key : Nat) (now : Int) :
    Option APIKey × String :=
  let key_hash := raw_key
  match lookupA st.keys_by_hash key_hash with
  | some key_id =>
      match lookupA st.keys key_id with
      | some api_key =>
          let v := api_key.is_valid now
          if v.1 then (some api_key, "OK") else (none, v.2)
      | none => (none, "Key not found")
  | none => (none, "Key not found")

/-- `KeyManager.get_key` with no storage backend. -/
def get_key (st : KeyManagerState) (key_id : Nat) : Option APIKey :=
  lookupA st.keys key_id

/-- `KeyManager.revoke_key`: set status REVOKED and drop the hash-index
entry (the key object stays, for audit). -/
def revoke_key (st : KeyManagerState) (key_id : Nat) : Bool × KeyManagerState :=
  match get_key st key_id with
  | none => (false, st)
  | some api_key =>
      (true,
        { st with
            keys := insertA st.keys key_id { api_key with status := .REVOKED }
            keys_by_hash := eraseA st.keys_by_hash api_key.key_hash })

/-- `KeyManager.suspend_key`: sets SUSPENDED unconditionally (no check of
the current status). -/
def suspend_key (st : KeyManagerState) (key_id : Nat) : Bool × KeyManagerState :=
  match get_key st key_id with
  | none => (false, st)
  | some api_key =>
      (true,
        { st with
            keys := insertA st.keys key_id { api_key with status := .SUSPENDED } })

/-- `KeyManager.reactivate_key`: refuses REVOKED keys, otherwise sets
ACTIVE. -/
def reactivate_key (st : KeyManagerState) (key_id : Nat) : Bool × KeyManagerState :=
  match get_key st key_id with
  | none => (false, st)
  | some api_key =>
      if api_key.status = .REVOKED then (false, st)
      else
        (true,
          { st with
              keys := insertA st.keys key_id { api_key with status := .ACTIVE } })

/-- `KeyManager.rotate_key`: fetch the old key, `create_key` a successor
with the same owner / policy / scope, then revoke the old key. `none`
when the old key is missing or the successor creation raises. -/
def rotate_key (st : KeyManagerState) (key_id : Nat) :
    Option (APIKey × Nat) × KeyManagerState :=
  match get_key st key_id with
  | none => (none, st)
  | some old_key =>
      match create_key st old_key.owner_id old_key.policy_id old_key.scope none with
      | (none, _) => (none, st)
      | (some (new_key, raw_key), st') =>
          let r := revoke_key st' key_id
          (some (new_key, raw_key), r.2)

/-- `KeyManager.record_usage`: bump `use_count` (`last_used_at` omitted). -/
def record_usage (st : KeyManagerState) (key_id : Nat) : KeyManagerState :=
  { st with keys := modifyA st.keys key_id (fun k => { k with use_count := k.use_count + 1 }) }

/-- `KeyManager.update_policy`: reassign the policy when it exists. -/
def update_policy (st : KeyManagerState) (key_id : Nat) (policy_id : String) :
    Bool × KeyManagerState :=
  match get_key st key_id with
  | none => (false, st)
  | some _ =>
      if policy_id ∈ st.policies then
        (true,
          { st with keys := modifyA st.keys key_id (fun k => { k with policy_id := policy_id }) })
      else (false, st)

/-- The key-manager API surface, as an operation alphabet for trace
reasoning (policy create/delete stand for the policy-engine mutations
visible to `create_key`). -/
inductive KMOp
  | createKey (owner_id policy_id : String) (scope : KeyScope) (expires_at : Option Int)
  | verifyKey (raw_key : Nat)
  | revokeKey (key_id : Nat)
  | suspendKey (key_id : Nat)
  | reactivateKey (key_id : Nat)
  | rotateKey (key_id : Nat)
  | recordUsage (key_id : Nat)
  | updatePolicy (key_id : Nat) (policy_id : String)
  | createPolicy (policy_id : String)
  | deletePolicy (policy_id : String)
  deriving DecidableEq, Repr

/-- State transition of one key-manager operation (`verify_key` mutates
nothing when there is no storage backend). -/
def applyKMOp (st : KeyManagerState) : KMOp → KeyManagerState
  | .createKey o p s e => (create_key st o p s e).2
  | .verifyKey _ => st
  | .revokeKey kid => (revoke_key st kid).2
  | .suspendKey kid => (suspend_key st kid).2
  | .reactivateKey kid => (reactivate_key st kid).2
  | .rotateKey kid => (rotate_key st kid).2
  | .recordUsage kid => record_usage st kid
  | .updatePolicy kid pid => (update_policy st kid pid).2
  | .createPolicy pid => { st with policies := pid :: st.policies }
  | .deletePolicy pid => { st with policies := st.policies.erase pid }

/-- Run a list of operations left to right. -/
def runKMOps (st : KeyManagerState) (ops : List KMOp) : KeyManagerState :=
  ops.foldl applyKMOp st

/-! ## `security/auth.py` -/

/-- `AuthToken` dataclass (all seven fields). -/
structure AuthToken where
  token_id : String
  key_id : String
  owner_id : String
  policy_id : String
  issued_at : Int
  expires_at : Int
  scope : String
  deriving DecidableEq, Repr

/-- The JWT claim dict produced by `AuthToken.to_dict` (`iat` / `exp`
renaming included). -/
structure JWTPayload where
  token_id : String
  key_id : String
  owner_id : String
  policy_id : String
  iat : Int
  exp : Int
  scope : String
  deriving DecidableEq, Repr

/-- `AuthToken.to_dict`. -/
def AuthToken.to_dict (t : AuthToken) : JWTPayload :=
  { token_id := t.token_id, key_id := t.key_id, owner_id := t.owner_id,
    policy_id := t.policy_id, iat := t.issued_at, exp := t.expires_at,
    scope := t.scope }

/-- `AuthToken.from_dict`. -/
def AuthToken.from_dict (d : JWTPayload) : AuthToken :=
  { token_id := d.token_id, key_id := d.key_id, owner_id := d.owner_id,
    policy_id := d.policy_id, issued_at := d.iat, expires_at := d.exp,
    scope := d.scope }

/-- `AuthToken.is_expired` with `time.time()` as `now`. -/
def AuthToken.is_expired (t : AuthToken) (now : Int) : Bool :=
  decide (now > t.expires_at)

/-- The encoded JWT blob: `jwt.encode(payload, secret, HS256)` is modelled
abstractly as the signed pair of payload and signing secret. -/
structure EncodedJWT where
  payload : JWTPayload
  secret : String
  deriving DecidableEq, Repr

/-- `AuthToken.encode`. -/
def AuthToken.encode (t : AuthToken) (secret : String) : EncodedJWT :=
  { payload := t.to_dict, secret := secret }

/-- `AuthToken.decode`: `jwt.decode` verifies the HS256 signature
(modelled as secret equality; mismatch raises `InvalidTokenError` and
yields `none`) and the `exp` claim against the current time (`exp < now`
raises `ExpiredSignatureError`, modelled with exact integer comparison). -/
def AuthToken.decode (s : EncodedJWT) (secret : String) (now : Int) : Option AuthToken :=
  if s.secret = secret then
    if s.payload.exp < now then none
    else some (AuthToken.from_dict s.payload)
  else none

/-- One sliding window of `AuthGateway._rate_limits[key_id]`. -/
structure RLWindow where
  count : Nat := 0
  start : Int
  deriving DecidableEq, Repr

/-- The per-key rate-limit record with its three windows. -/
structure RLEntry where
  minute : RLWindow
  hour : RLWindow
  day : RLWindow
  deriving DecidableEq, Repr

/-- The lazy window resets at the top of `AuthGateway.check_rate_limit`
(these mutate the stored record before any limit is checked). -/
def reset_windows (rl : RLEntry) (now : Int) : RLEntry :=
  { minute := if now - rl.minute.start > 60 then { count := 0, start := now } else rl.minute
    hour := if now - rl.hour.start > 3600 then { count := 0, start := now } else rl.hour
    day := if now - rl.day.start > 86400 then { count := 0, start := now } else rl.day }

/-- `AuthGateway.check_rate_limit` on one key's record, after the record
exists (a missing record is first initialised to three zero counters
starting at `now`): lazy resets, then the three threshold checks, then
the increments only on the granting path. Returns
(allowed, reason, stored record). -/
def check_rate_limit (rl : RLEntry) (limits : RateLimit) (now : Int) :
    Bool × String × RLEntry :=
  let rl := reset_windows rl now
  if rl.minute.count ≥ limits.requests_per_minute then
    (false, "Rate limit exceeded (per minute)", rl)
  else if rl.hour.count ≥ limits.requests_per_hour then
    (false, "Rate limit exceeded (per hour)", rl)
  else if rl.day.count ≥ limits.requests_per_day then
    (false, "Rate limit exceeded (per day)", rl)
  else
    (true, "OK",
      { minute := { rl.minute with count := rl.minute.count + 1 }
        hour := { rl.hour with count := rl.hour.count + 1 }
        day := { rl.day with count := rl.day.count + 1 } })

/-- The fresh record installed when `key_id not in self._rate_limits`. -/
def fresh_rl_entry (now : Int) : RLEntry :=
  { minute := { count := 0, start := now }
    hour := { count := 0, start := now }
    day := { count := 0, start := now } }

/-- `AuthGateway.check_rate_limit` at the gateway level: the
`_rate_limits` table keyed by `key_id`. -/
def gateway_check_rate_limit (table : List (String × RLEntry)) (key_id : String)
    (limits : RateLimit) (now : Int) : Bool × String × List (String × RLEntry) :=
  let rl := (lookupA table key_id).getD (fresh_rl_entry now)
  let r := check_rate_limit rl limits now
  (r.1, r.2.1, insertA table key_id r.2.2)

/-! ## `core/network.py` -/

/-- `SignalType` enum. -/
inductive SignalType
  | QUERY
  | RESPONSE
  | BROADCAST
  | HEARTBEAT
  | DISCOVERY
  | OPERATOR_INVOKE
  | ERROR
  deriving DecidableEq, Repr

/-- `Signal` dataclass (`timestamp` omitted: wall clock, never read). -/
structure Signal where
  signal_id : String
  signal_type : SignalType
  source_slot : String
  target_slot : Option String
  payload : List (String × String) := []
  ttl : Int := 5
  path : List String := []
  deriving DecidableEq, Repr

/-- `SlotState` enum. -/
inductive SlotState
  | IDLE
  | LISTENING
  | PROCESSING
  | EXECUTING
  | WAITING
  | ERROR
  | STOPPED
  deriving DecidableEq, Repr

/-- `ReactiveSlot`: the fields read by `send_signal` and
`invoke_operator` (bindings and timestamps omitted; `connections` is the
set as a duplicate-free list). -/
structure ReactiveSlot where
  slot_id : String
  operator_ids : List String := []
  connections : List String := []
  signal_queue : List Signal := []
  state : SlotState := .IDLE
  error_count : Nat := 0
  deriving DecidableEq, Repr

/-- `EmergentNetwork.slots`. -/
structure NetworkState where
  slots : List (String × ReactiveSlot)
  deriving DecidableEq, Repr

/-- `slot.signal_queue.append(signal)` on the slot stored at `sid`. -/
def enqueue_signal (net : NetworkState) (sid : String) (s : Signal) : NetworkState :=
  { slots := modifyA net.slots sid
      (fun sl => { sl with signal_queue := sl.signal_queue ++ [s] }) }

/-- `EmergentNetwork.send_signal`: targeted enqueue, or broadcast clones
to every existing neighbour of the source slot with `ttl - 1` and the
source appended to `path`. The source contains no test of the decremented
`ttl`: clones are enqueued whatever its value. -/
def send_signal (net : NetworkState) (signal : Signal) : NetworkState :=
  match signal.target_slot with
  | some t =>
      if (lookupA net.slots t).isSome then enqueue_signal net t signal else net
  | none =>
      match lookupA net.slots signal.source_slot with
      | none => net
      | some source =>
          source.connections.foldl
            (fun acc conn_id =>
              if (lookupA acc.slots conn_id).isSome then
                enqueue_signal acc conn_id
                  { signal with
                      target_slot := some conn_id
                      ttl := signal.ttl - 1
                      path := signal.path ++ [signal.source_slot] }
              else acc)
            net

/-- The response dict of `EmergentNetwork.invoke_operator`
(`latency_ms` omitted). -/
structure NetInvokeResponse where
  success : Bool
  outputs : Option (List (String × String)) := none
  error : Option String := none
  deriving DecidableEq, Repr

/-- `EmergentNetwork.invoke_operator`: a missing slot is the only refusal;
an operator id absent from `slot.operator_ids` is appended ("Try to add
it") and the registry invocation proceeds. The registry call is an
`Except` argument whose `error` arm is the `except Exception` branch. -/
def network_invoke_operator (net : NetworkState) (slot_id operator_id : String)
    (registry_result : Except String OperatorInvocation) :
    NetInvokeResponse × NetworkState :=
  match lookupA net.slots slot_id with
  | none => ({ success := false, error := some "Slot not found" }, net)
  | some slot =>
      let slot :=
        if operator_id ∈ slot.operator_ids then slot
        else { slot with operator_ids := slot.operator_ids ++ [operator_id] }
      let slot := { slot with state := .EXECUTING }
      match registry_result with
      | .ok result =>
          let slot := { slot with state := .LISTENING }
          ({ success := result.success, outputs := result.outputs,
             error := result.error },
           { slots := insertA net.slots slot_id slot })
      | .error e =>
          let slot := { slot with state := .ERROR, error_count := slot.error_count + 1 }
          ({ success := false, error := some e },
           { slots := insertA net.slots slot_id slot })

/-! ## `core/memtools.py` -/

/-- `Memory`: the fields read by the tag-recall path (`content`, counters,
links, embeddings omitted; the id is the content hash and is opaque
here). -/
structure Memory where
  memory_id : String
  memory_type : String := "general"
  importance : ℚ := mkRat 1 2
  accessed_at : Int := 0
  tags : List String := []
  deriving DecidableEq, Repr

/-- `MemtoolRegistry` state: `_memories` and `_indices["tags"]`
(the type index is not read by the tag-recall path). -/
structure MemtoolState where
  memories : List (String × Memory) := []
  tag_index : List (String × List String) := []
  deriving DecidableEq, Repr

/-- `MemtoolRegistry._index_memory`, tags part: `indices["tags"][tag].add(id)`. -/
def index_memory (st : MemtoolState) (m : Memory) : MemtoolState :=
  { st with
      tag_index :=
        m.tags.foldl
          (fun idx tag =>
            match lookupA idx tag with
            | some mids =>
                insertA idx tag (if m.memory_id ∈ mids then mids else mids ++ [m.memory_id])
            | none => insertA idx tag [m.memory_id])
          st.tag_index }

/-- `MemtoolRegistry.store` for a fresh memory: insert and index. A
duplicate id only receives an `access()` importance boost, which the
recall claim never reads, so the duplicate branch is the identity here. -/
def store_memory (st : MemtoolState) (m : Memory) : MemtoolState :=
  if (lookupA st.memories m.memory_id).isSome then st
  else index_memory { st with memories := insertA st.memories m.memory_id m } m

/-- Index consistency maintained by `store` / `_index_memory`: every id
listed under a tag that still resolves to a stored memory carries that
tag. -/
def well_indexed (st : MemtoolState) : Bool :=
  st.tag_index.all
    (fun p =>
      p.2.all
        (fun mid =>
          match lookupA st.memories mid with
          | some m => p.1 ∈ m.tags
          | none => true))

/-- Strict descending order on the Python sort key
`(importance, -now + accessed_at)` (the `-now` shift is a constant and
drops out). -/
def mem_key_lt (a b : Memory) : Bool :=
  a.importance < b.importance ||
    (a.importance = b.importance && a.accessed_at < b.accessed_at)

/-- Stable insertion for the descending sort of `recall`: an element moves
past a later element only when strictly smaller, so equal keys keep their
original order, as Python's stable `sort(reverse=True)` does. -/
def insert_desc (m : Memory) : List Memory → List Memory
  | [] => [m]
  | x :: xs => if mem_key_lt m x then x :: insert_desc m xs else m :: x :: xs

/-- `memories.sort(key=..., reverse=True)`: stable descending sort. -/
def sort_desc (l : List Memory) : List Memory :=
  l.foldr insert_desc []

/-- The tag branch of `MemtoolRegistry.recall` (`memory_id=None`,
`query=None`, non-empty `tags`): union of the per-tag index buckets,
resolve ids, optional type filter, sort, truncate. The post-selection
`access()` boost mutates the returned memories only after this list is
fixed and is not modelled. -/
def recall_by_tags (st : MemtoolState) (tags : List String)
    (memory_type : Option String) (limit : Nat) : List Memory :=
  let matching_ids :=
    tags.foldl
      (fun acc tag =>
        match lookupA st.tag_index tag with
        | some mids => acc ++ mids.filter (fun mid => mid ∉ acc)
        | none => acc)
      []
  let memories := matching_ids.filterMap (fun mid => lookupA st.memories mid)
  let memories :=
    match memory_type with
    | some t => memories.filter (fun m => m.memory_type = t)
    | none => memories
  (sort_desc memories).take limit

/-! ## `core/discovery.py` -/

/-- `Capability`: the fields the registration loop reads (schemas, health
statistics and provenance omitted). -/
structure Capability where
  capability_id : String
  name : String
  capability_type : String
  endpoint : String
  method : String
  deriving DecidableEq, Repr

/-- Whether the registration loop of `discover_from_source` keeps a
capability: kernel allow. A deny or a raised exception (`Except.error`)
both `continue` past it. -/
def cap_allowed (enf : Capability → Except String KernelDecision)
    (cap : Capability) : Bool :=
  match enf cap with
  | .ok d => d.allowed
  | .error _ => false

/-- The registration loop of `DiscoveryEngine.discover_from_source`:
for each discovered capability, kernel enforcement; on allow, store into
`_capabilities` and notify every hook; on deny or exception, skip both.
The second component lists the capability ids for which hooks ran, in
order. -/
def register_capabilities (enf : Capability → Except String KernelDecision)
    (catalog : List (String × Capability)) :
    List Capability → List (String × Capability) × List String
  | [] => (catalog, [])
  | cap :: rest =>
      if cap_allowed enf cap then
        let r := register_capabilities enf (insertA catalog cap.capability_id cap) rest
        (r.1, cap.capability_id :: r.2)
      else register_capabilities enf catalog rest

/-! ## Invariants and concrete instances used by the claim theorems -/

/-- The state of a raw secret after `revoke_key`: its hash is out of
`_keys_by_hash`, and (fresh-nonce discipline) no future secret can equal
it. -/
def raw_dead (st : KeyManagerState) (raw : Nat) : Prop :=
  lookupA st.keys_by_hash raw = none ∧ raw < st.nonce

/-- The state of a key id after `revoke_key`: the stored record is
REVOKED, and (fresh-nonce discipline) no future key id can collide with
it. -/
def revoked_rec (st : KeyManagerState) (kid : Nat) : Prop :=
  (lookupA st.keys kid).map APIKey.status = some KeyStatus.REVOKED ∧ kid < st.nonce

/-- An operator whose endpoint is plaintext HTTP to the host
`localhost.evil.com`: not a local host, yet inside the prefix
`http://localhost`. -/
def op_evil : OperatorSignature :=
  { operator_id := "op_evil", endpoint_url := "http://localhost.evil.com/x",
    method := "POST" }

/-- A one-operator registry around `op_evil`. -/
def reg_evil : List (String × OperatorSignature) := [("op_evil", op_evil)]

/-- An ordinary HTTPS operator. -/
def op_plain : OperatorSignature :=
  { operator_id := "op_plain", endpoint_url := "https://api.example.com/v1",
    method := "POST" }

/-- A discovered capability. -/
def cap_one : Capability :=
  { capability_id := "cap1", name := "health", capability_type := "rest_api",
    endpoint := "https://api.example.com/health", method := "GET" }

/-- An operator with non-trivial prior statistics. -/
def op_stats : OperatorSignature :=
  { operator_id := "op_stats", endpoint_url := "https://api.example.com/v2",
    method := "POST", avg_latency_ms := 50, success_rate := 1,
    consistency_score := 1, call_count := 0 }

/-- Slot `s1`, connected to `s2`. -/
def slot_s1 : ReactiveSlot :=
  { slot_id := "s1", connections := ["s2"], state := .LISTENING }

/-- Slot `s2`, connected to `s1`. -/
def slot_s2 : ReactiveSlot :=
  { slot_id := "s2", connections := ["s1"], state := .LISTENING }

/-- A two-slot network with a single symmetric connection. -/
def net_two : NetworkState := { slots := [("s1", slot_s1), ("s2", slot_s2)] }

/-- A broadcast signal with a hop budget of exactly 1. -/
def sig_ttl1 : Signal :=
  { signal_id := "sig1", signal_type := .BROADCAST, source_slot := "s1",
    target_slot := none, ttl := 1 }

/-- A memory carrying only tag `a`. -/
def mem_a : Memory := { memory_id := "mA", tags := ["a"] }

/-- A memory carrying tags `a` and `b`. -/
def mem_ab : Memory := { memory_id := "mB", tags := ["a", "b"] }

/-- A registry holding `mem_a` and `mem_ab`, built through `store`. -/
def mem_state : MemtoolState := store_memory (store_memory {} mem_a) mem_ab

/-- A key manager with one existing policy and nothing else. -/
def km0 : KeyManagerState := { policies := ["pol_user"] }

/-- `km0` after one `create_key` (key id 0, raw secret 0). -/
def km_created : KeyManagerState :=
  applyKMOp km0 (.createKey "alice" "pol_user" .USER none)

/-- `km_created` after revoking key 0. -/
def km_revoked : KeyManagerState := applyKMOp km_created (.revokeKey 0)

/-- `km_revoked` after suspending the already-revoked key 0. -/
def km_suspended : KeyManagerState := applyKMOp km_revoked (.suspendKey 0)

/-- The key record `create_key` stores in `km_created`. -/
def key0 : APIKey :=
  { key_id := 0, key_hash := 0, owner_id := "alice", policy_id := "pol_user",
    scope := .USER }

/-- A rate-limit record sitting exactly at the default per-minute limit. -/
def rl_full : RLEntry :=
  { minute := { count := 60, start := 0 }
    hour := { count := 60, start := 0 }
    day := { count := 60, start := 0 } }

/-- An operator at a plaintext endpoint with a genuinely non-local prefix. -/
def op_http : OperatorSignature :=
  { operator_id := "op_http", endpoint_url := "http://evil.example.com/a",
    method := "POST" }

/-! ## Association-list lemmas -/

theorem lookupA_insertA_self {κ α : Type} [DecidableEq κ]
    (l : List (κ × α)) (k : κ) (v : α) : lookupA (insertA l k v) k = some v := by
  induction l with
  | nil => simp [insertA, lookupA]
  | cons hd t ih =>
      obtain ⟨k', v'⟩ := hd
      by_cases h : k' = k <;> simp [insertA, lookupA, h, ih]

theorem lookupA_insertA_ne {κ α : Type} [DecidableEq κ]
    (l : List (κ × α)) (k k' : κ) (v : α) (h : k ≠ k') :
    lookupA (insertA l k v) k' = lookupA l k' := by
  induction l with
  | nil => simp [insertA, lookupA, h]
  | cons hd t ih =>
      obtain ⟨k₀, v₀⟩ := hd
      by_cases h₀ : k₀ = k
      · subst h₀; simp [insertA, lookupA, h]
      · simp [insertA, lookupA, h₀, ih]

theorem lookupA_eraseA_self {κ α : Type} [DecidableEq κ]
    (l : List (κ × α)) (k : κ) : lookupA (eraseA l k) k = none := by
  induction l with
  | nil => simp [eraseA, lookupA]
  | cons hd t ih =>
      obtain ⟨k₀, v₀⟩ := hd
      by_cases h : k₀ = k <;>
        simpa [eraseA, List.filter_cons, h, lookupA] using ih

theorem lookupA_eraseA_none {κ α : Type} [DecidableEq κ]
    (l : List (κ × α)) (k k' : κ) (h : lookupA l k' = none) :
    lookupA (eraseA l k) k' = none := by
  induction l with
  | nil => simpa [eraseA] using h
  | cons hd t ih =>
      obtain ⟨k₀, v₀⟩ := hd
      by_cases h₀ : k₀ = k'
      · simp [lookupA, h₀] at h
      · simp only [lookupA, if_neg h₀] at h
        by_cases h₁ : k₀ = k
        · simpa [eraseA, List.filter_cons, h₁] using ih h
        · have := ih h
          simp only [eraseA] at this
          simpa [eraseA, List.filter_cons, h₁, lookupA, h₀] using this

theorem lookupA_modifyA_statusfree {κ α β : Type} [DecidableEq κ]
    (l : List (κ × α)) (k : κ) (f : α → α) (g : α → β)
    (hg : ∀ a, g (f a) = g a) :
    (lookupA (modifyA l k f) k).map g = (lookupA l k).map g := by
  unfold modifyA
  cases h : lookupA l k with
  | none => simp [h]
  | some v => simp [h, lookupA_insertA_self, hg]

theorem lookupA_modifyA_ne {κ α : Type} [DecidableEq κ]
    (l : List (κ × α)) (k k' : κ) (f : α → α) (h : k ≠ k') :
    lookupA (modifyA l k f) k' = lookupA l k' := by
  unfold modifyA
  cases lookupA l k with
  | none => rfl
  | some v => exact lookupA_insertA_ne l k k' (f v) h

theorem lookupA_mem {κ α : Type} [DecidableEq κ]
    {l : List (κ × α)} {k : κ} {v : α} (h : lookupA l k = some v) : (k, v) ∈ l := by
  induction l with
  | nil => simp [lookupA] at h
  | cons hd t ih =>
      obtain ⟨k₀, v₀⟩ := hd
      by_cases h₀ : k₀ = k
      · subst h₀
        simp [lookupA] at h
        simp [h]
      · simp only [lookupA, if_neg h₀] at h
        exact List.mem_cons_of_mem _ (ih h)

/-! ## Recall lemmas -/

theorem mem_insert_desc {m x : Memory} {l : List Memory}
    (h : x ∈ insert_desc m l) : x = m ∨ x ∈ l := by
  induction l with
  | nil => simpa [insert_desc] using h
  | cons hd t ih =>
      by_cases hk : mem_key_lt m hd = true
      · simp only [insert_desc, if_pos hk, List.mem_cons] at h
        rcases h with h | h
        · exact Or.inr (by simp [h])
        · rcases ih h with h' | h'
          · exact Or.inl h'
          · exact Or.inr (List.mem_cons_of_mem _ h')
      · simp only [insert_desc, if_neg hk, List.mem_cons] at h
        rcases h with h | h | h
        · exact Or.inl h
        · exact Or.inr (by simp [h])
        · exact Or.inr (List.mem_cons_of_mem _ h)

theorem mem_sort_desc {x : Memory} {l : List Memory}
    (h : x ∈ sort_desc l) : x ∈ l := by
  induction l with
  | nil => simp [sort_desc] at h
  | cons hd t ih =>
      simp only [sort_desc, List.foldr_cons] at h
      rcases mem_insert_desc h with h' | h'
      · simp [h']
      · exact List.mem_cons_of_mem _ (ih h')

/-- Membership in the union accumulated over the per-tag index buckets. -/
theorem mem_tags_union {index : List (String × List String)}
    {tags : List String} {acc : List String} {mid : String}
    (h : mid ∈ tags.foldl
      (fun acc tag =>
        match lookupA index tag with
        | some mids => acc ++ mids.filter (fun m => m ∉ acc)
        | none => acc) acc) :
    mid ∈ acc ∨ ∃ tag ∈ tags, ∃ mids, lookupA index tag = some mids ∧ mid ∈ mids := by
  induction tags generalizing acc with
  | nil => exact Or.inl (by simpa using h)
  | cons t ts ih =>
      simp only [List.foldl_cons] at h
      rcases ih h with h' | h'
      · cases hidx : lookupA index t with
        | none => simp only [hidx] at h'; exact Or.inl h'
        | some mids =>
            simp only [hidx, List.mem_append, List.mem_filter] at h'
            rcases h' with h' | ⟨h', _⟩
            · exact Or.inl h'
            · exact Or.inr ⟨t, by simp, mids, hidx, h'⟩
      · rcases h' with ⟨tag, htag, mids, hm, hmem⟩
        exact Or.inr ⟨tag, List.mem_cons_of_mem _ htag, mids, hm, hmem⟩

/-- What `well_indexed` gives pointwise. -/
theorem well_indexed_spec {st : MemtoolState} (h : well_indexed st = true)
    {tag : String} {mids : List String} {mid : String} {m : Memory}
    (hidx : lookupA st.tag_index tag = some mids) (hmid : mid ∈ mids)
    (hm : lookupA st.memories mid = some m) : tag ∈ m.tags := by
  unfold well_indexed at h
  rw [List.all_eq_true] at h
  have hp := h (tag, mids) (lookupA_mem hidx)
  rw [List.all_eq_true] at hp
  have := hp mid hmid
  simpa [hm] using this

/-! ## Discovery-registration lemma -/

/-- A capability whose every same-id occurrence fails enforcement (deny or
raised exception) is neither stored nor notified to hooks. -/
theorem register_capabilities_skips
    (enf : Capability → Except String KernelDecision)
    (catalog : List (String × Capability)) (caps : List Capability) (cid : String)
    (h : ∀ c ∈ caps, c.capability_id = cid → cap_allowed enf c = false) :
    lookupA (register_capabilities enf catalog caps).1 cid = lookupA catalog cid ∧
    cid ∉ (register_capabilities enf catalog caps).2 := by
  induction caps generalizing catalog with
  | nil => simp [register_capabilities]
  | cons cap rest ih =>
      by_cases ha : cap_allowed enf cap = true
      · have hne : cap.capability_id ≠ cid := by
          intro he
          have := h cap (by simp) he
          rw [ha] at this
          exact Bool.true_eq_false.mp this
        have ih' := ih (insertA catalog cap.capability_id cap)
          (fun c hc he => h c (List.mem_cons_of_mem _ hc) he)
        simp only [register_capabilities, if_pos ha]
        constructor
        · rw [ih'.1]
          exact lookupA_insertA_ne catalog cap.capability_id cid cap hne
        · intro hmem
          rcases List.mem_cons.mp hmem with h' | h'
          · exact hne h'.symm
          · exact ih'.2 h'
      · have ih' := ih catalog (fun c hc he => h c (List.mem_cons_of_mem _ hc) he)
        simpa [register_capabilities, ha] using ih'

/-! ## Key-manager invariant lemmas -/

theorem raw_dead_create {st : KeyManagerState} {raw : Nat} (h : raw_dead st raw)
    (o p : String) (s : KeyScope) (e : Option Int) :
    raw_dead (create_key st o p s e).2 raw := by
  obtain ⟨hh, hn⟩ := h
  simp only [create_key]
  split
  · refine ⟨?_, by simp; omega⟩
    show lookupA (insertA st.keys_by_hash st.nonce st.nonce) raw = none
    rw [lookupA_insertA_ne _ _ _ _ (show st.nonce ≠ raw by omega)]
    exact hh
  · exact ⟨hh, hn⟩

theorem raw_dead_revoke {st : KeyManagerState} {raw : Nat} (h : raw_dead st raw)
    (kid : Nat) : raw_dead (revoke_key st kid).2 raw := by
  obtain ⟨hh, hn⟩ := h
  simp only [revoke_key, get_key]
  cases hk : lookupA st.keys kid with
  | none => exact ⟨hh, hn⟩
  | some k => exact ⟨lookupA_eraseA_none _ _ _ hh, hn⟩

theorem raw_dead_rotate {st : KeyManagerState} {raw : Nat} (h : raw_dead st raw)
    (kid : Nat) : raw_dead (rotate_key st kid).2 raw := by
  unfold rotate_key get_key
  split
  · exact h
  · rename_i old heq
    split
    · exact h
    · rename_i nk rk st' hc
      have hd : raw_dead st' raw := by
        have := raw_dead_create h old.owner_id old.policy_id old.scope none
        rw [hc] at this
        exact this
      exact raw_dead_revoke hd kid

theorem raw_dead_apply {st : KeyManagerState} {raw : Nat} (h : raw_dead st raw)
    (op : KMOp) : raw_dead (applyKMOp st op) raw := by
  obtain ⟨hh, hn⟩ := h
  cases op with
  | createKey o p s e => exact raw_dead_create ⟨hh, hn⟩ o p s e
  | verifyKey r => exact ⟨hh, hn⟩
  | revokeKey kid => exact raw_dead_revoke ⟨hh, hn⟩ kid
  | suspendKey kid =>
      simp only [applyKMOp, suspend_key, get_key]
      cases lookupA st.keys kid with
      | none => exact ⟨hh, hn⟩
      | some k => exact ⟨hh, hn⟩
  | reactivateKey kid =>
      simp only [applyKMOp, reactivate_key, get_key]
      split
      · exact ⟨hh, hn⟩
      · split
        · exact ⟨hh, hn⟩
        · exact ⟨hh, hn⟩
  | rotateKey kid => exact raw_dead_rotate ⟨hh, hn⟩ kid
  | recordUsage kid => exact ⟨hh, hn⟩
  | updatePolicy kid pid =>
      simp only [applyKMOp, update_policy, get_key]
      split
      · exact ⟨hh, hn⟩
      · split
        · exact ⟨hh, hn⟩
        · exact ⟨hh, hn⟩
  | createPolicy pid => exact ⟨hh, hn⟩
  | deletePolicy pid => exact ⟨hh, hn⟩

theorem raw_dead_run {st : KeyManagerState} {raw : Nat} (h : raw_dead st raw)
    (ops : List KMOp) : raw_dead (runKMOps st ops) raw := by
  induction ops generalizing st with
  | nil => exact h
  | cons op rest ih => exact ih (raw_dead_apply h op)

theorem revoked_rec_create {st : KeyManagerState} {kid : Nat} (h : revoked_rec st kid)
    (o p : String) (s : KeyScope) (e : Option Int) :
    revoked_rec (create_key st o p s e).2 kid := by
  obtain ⟨hh, hn⟩ := h
  simp only [create_key]
  split
  · refine ⟨?_, by simp; omega⟩
    show (lookupA (insertA st.keys st.nonce _) kid).map APIKey.status = _
    rw [lookupA_insertA_ne _ _ _ _ (show st.nonce ≠ kid by omega)]
    exact hh
  · exact ⟨hh, hn⟩

theorem revoked_rec_revoke {st : KeyManagerState} {kid : Nat} (h : revoked_rec st kid)
    (kid' : Nat) : revoked_rec (revoke_key st kid').2 kid := by
  obtain ⟨hh, hn⟩ := h
  simp only [revoke_key, get_key]
  cases hk : lookupA st.keys kid' with
  | none => exact ⟨hh, hn⟩
  | some k =>
      by_cases he : kid' = kid
      · subst he
        refine ⟨?_, hn⟩
        show (lookupA (insertA st.keys kid' _) kid').map APIKey.status = _
        rw [lookupA_insertA_self]
        rfl
      · refine ⟨?_, hn⟩
        show (lookupA (insertA st.keys kid' _) kid).map APIKey.status = _
        rw [lookupA_insertA_ne _ _ _ _ he]
        exact hh

theorem revoked_rec_rotate {st : KeyManagerState} {kid : Nat} (h : revoked_rec st kid)
    (kid' : Nat) : revoked_rec (rotate_key st kid').2 kid := by
  unfold rotate_key get_key
  split
  · exact h
  · rename_i old heq
    split
    · exact h
    · rename_i nk rk st' hc
      have hd : revoked_rec st' kid := by
        have := revoked_rec_create h old.owner_id old.policy_id old.scope none
        rw [hc] at this
        exact this
      exact revoked_rec_revoke hd kid'

theorem revoked_rec_apply {st : KeyManagerState} {kid : Nat} (h : revoked_rec st kid)
    (op : KMOp) (hop : op ≠ KMOp.suspendKey kid) :
    revoked_rec (applyKMOp st op) kid := by
  obtain ⟨hh, hn⟩ := h
  cases op with
  | createKey o p s e => exact revoked_rec_create ⟨hh, hn⟩ o p s e
  | verifyKey r => exact ⟨hh, hn⟩
  | revokeKey kid' => exact revoked_rec_revoke ⟨hh, hn⟩ kid'
  | suspendKey kid' =>
      have hne : kid' ≠ kid := fun he => hop (by rw [he])
      simp only [applyKMOp, suspend_key, get_key]
      cases lookupA st.keys kid' with
      | none => exact ⟨hh, hn⟩
      | some k =>
          refine ⟨?_, hn⟩
          show (lookupA (insertA st.keys kid' _) kid).map APIKey.status = _
          rw [lookupA_insertA_ne _ _ _ _ hne]
          exact hh
  | reactivateKey kid' =>
      simp only [applyKMOp, reactivate_key, get_key]
      split
      · exact ⟨hh, hn⟩
      · rename_i k hk
        split
        · exact ⟨hh, hn⟩
        · rename_i hs
          by_cases he : kid' = kid
          · subst he
            rw [hk] at hh
            have : k.status = KeyStatus.REVOKED := by simpa using hh
            exact absurd this hs
          · refine ⟨?_, hn⟩
            show (lookupA (insertA st.keys kid' _) kid).map APIKey.status = _
            rw [lookupA_insertA_ne _ _ _ _ he]
            exact hh
  | rotateKey kid' => exact revoked_rec_rotate ⟨hh, hn⟩ kid'
  | recordUsage kid' =>
      simp only [applyKMOp, record_usage]
      by_cases he : kid' = kid
      · subst he
        refine ⟨?_, hn⟩
        exact (lookupA_modifyA_statusfree st.keys kid'
          (fun k => { k with use_count := k.use_count + 1 }) APIKey.status
          (fun a => rfl)).trans hh
      · refine ⟨?_, hn⟩
        show (lookupA (modifyA st.keys kid' _) kid).map APIKey.status = _
        rw [lookupA_modifyA_ne _ _ _ _ he]
        exact hh
  | updatePolicy kid' pid =>
      simp only [applyKMOp, update_policy, get_key]
      split
      · exact ⟨hh, hn⟩
      · split
        · by_cases he : kid' = kid
          · subst he
            refine ⟨?_, hn⟩
            exact (lookupA_modifyA_statusfree st.keys kid'
              (fun k => { k with policy_id := pid }) APIKey.status
              (fun a => rfl)).trans hh
          · refine ⟨?_, hn⟩
            show (lookupA (modifyA st.keys kid' _) kid).map APIKey.status = _
            rw [lookupA_modifyA_ne _ _ _ _ he]
            exact hh
        · exact ⟨hh, hn⟩
  | createPolicy pid => exact ⟨hh, hn⟩
  | deletePolicy pid => exact ⟨hh, hn⟩

theorem revoked_rec_run {st : KeyManagerState} {kid : Nat} (h : revoked_rec st kid)
    {ops : List KMOp} (hops : KMOp.suspendKey kid ∉ ops) :
    revoked_rec (runKMOps st ops) kid := by
  induction ops generalizing st with
  | nil => exact h
  | cons op rest ih =>
      have h1 : op ≠ KMOp.suspendKey kid := fun he => hops (by rw [he]; simp)
      exact ih (revoked_rec_apply h op h1) (fun hm => hops (List.mem_cons_of_mem _ hm))

theorem verify_key_of_dead {st : KeyManagerState} {raw : Nat} (h : raw_dead st raw)
    (now : Int) : verify_key st raw now = (none, "Key not found") := by
  simp [verify_key, h.1]

theorem reactivate_of_revoked {st : KeyManagerState} {kid : Nat}
    (h : revoked_rec st kid) : (reactivate_key st kid).1 = false := by
  obtain ⟨hh, _⟩ := h
  cases hk : lookupA st.keys kid with
  | none => simp [reactivate_key, get_key, hk]
  | some k =>
      rw [hk] at hh
      have : k.status = KeyStatus.REVOKED := by simpa using hh
      simp [reactivate_key, get_key, hk, this]

/-! ## Claim theorems -/

/-- C1 (counterexample). The claim reads the transport invariant over the
endpoint's host. The kernel's check is a string-prefix test, so the
endpoint `http://localhost.evil.com/x` — plaintext HTTP to the non-local
host `localhost.evil.com` — is NOT denied: with the default kernel policy
installed and no break-glass, `enforce_operator_invoke` and
`enforce_discovery_register` both return allow, and `invoke` performs the
outbound HTTP request. -/
theorem C1_host_reading_counterexample :
    urlHost "http://localhost.evil.com/x" = "localhost.evil.com" ∧
    "localhost.evil.com" ∉ (["localhost", "127.0.0.1", "0.0.0.0"] : List String) ∧
    starts_with "http://localhost.evil.com/x" "http://" = true ∧
    op_evil.endpoint_url = "http://localhost.evil.com/x" ∧
    ({} : ActorCtx).kernel_bypass = false ∧
    enforce_operator_invoke default_kernel_engine "op_evil"
        "http://localhost.evil.com/x" "POST" {} 0 =
      { allowed := true, reason := "Allowed" } ∧
    enforce_discovery_register default_kernel_engine "rest_api"
        "http://localhost.evil.com/x" "POST" {} 0 =
      { allowed := true, reason := "Allowed" } ∧
    (invoke reg_evil default_kernel_engine "op_evil" [] {} 0
        (HttpResult.resp 200 "ok")).2 = true ∧
    (invoke reg_evil default_kernel_engine "op_evil" [] {} 0
        (HttpResult.resp 200 "ok")).1.success = true := by
  decide

/-- C1 (amended). The transport invariant the kernel actually enforces is
prefix-based: whenever the endpoint URL starts with `http://` but with
none of `http://localhost`, `http://127.0.0.1`, `http://0.0.0.0`, and the
actor cannot break-glass, both enforcement entry points deny with
"Insecure transport: HTTPS required", and `invoke` on an operator at such
an endpoint fails with that error without performing outbound I/O. -/
theorem C1_insecure_prefix_denied
    (engine : PolicyEngineState) (ctx : ActorCtx) (now : Int) (endpoint : String)
    (hb : can_bypass engine ctx now = false)
    (ht : insecure_transport endpoint = true) :
    (∀ operator_id method,
      enforce_operator_invoke engine operator_id endpoint method ctx now =
        { allowed := false, reason := "Insecure transport: HTTPS required" }) ∧
    (∀ capability_type method,
      enforce_discovery_register engine capability_type endpoint method ctx now =
        { allowed := false, reason := "Insecure transport: HTTPS required" }) ∧
    (∀ (reg : List (String × OperatorSignature)) (opId : String)
        (op : OperatorSignature) (inputs : List (String × String)) (http : HttpResult),
      lookupA reg opId = some op → op.endpoint_url = endpoint →
      invoke reg engine opId inputs ctx now http =
        ({ operator_id := opId, inputs := inputs, success := false,
           error := some "Insecure transport: HTTPS required" }, false)) := by
  refine ⟨fun oid m => ?_, fun ct m => ?_, fun reg opId op inputs http hop hep => ?_⟩
  · simp [enforce_operator_invoke, hb, ht]
  · simp [enforce_discovery_register, hb, ht]
  · have ht' : insecure_transport op.endpoint_url = true := by rw [hep]; exact ht
    simp [invoke, invoke_with, hop, enforce_operator_invoke, hb, ht']

/-- C1 (witness for the amended theorem). -/
theorem C1_insecure_prefix_denied_witness :
    enforce_operator_invoke default_kernel_engine "op_http"
        "http://evil.example.com/a" "POST" {} 0 =
      { allowed := false, reason := "Insecure transport: HTTPS required" } ∧
    invoke [("op_http", op_http)] default_kernel_engine "op_http" [] {} 0
        (HttpResult.resp 200 "ok") =
      ({ operator_id := "op_http", inputs := [], success := false,
         error := some "Insecure transport: HTTPS required" }, false) := by
  have h := C1_insecure_prefix_denied default_kernel_engine {} 0
    "http://evil.example.com/a" (by decide) (by decide)
  exact ⟨h.1 "op_http" "POST",
    h.2.2 [("op_http", op_http)] "op_http" op_http [] (HttpResult.resp 200 "ok")
      (by decide) rfl⟩

/-- C2. Fail-safe enforcement: when the kernel-enforcement call raises,
`invoke` returns a failed invocation carrying "Kernel enforcement error"
and performs no outbound I/O; and in the discovery registration loop a
capability whose enforcement raises is neither stored in the capability
catalog nor handed to any promotion hook. Enforcement errors are never
treated as allow. -/
theorem C2_enforcement_failsafe :
    (∀ (reg : List (String × OperatorSignature)) (opId : String)
        (op : OperatorSignature) (inputs : List (String × String)) (e : String)
        (http : HttpResult),
      lookupA reg opId = some op →
      invoke_with reg (fun _ _ _ => Except.error e) opId inputs http =
        ({ operator_id := opId, inputs := inputs, success := false,
           error := some ("Kernel enforcement error: " ++ e) }, false)) ∧
    (∀ (enf : Capability → Except String KernelDecision)
        (catalog : List (String × Capability)) (caps : List Capability) (cid : String),
      (∀ c ∈ caps, c.capability_id = cid → ∃ msg, enf c = Except.error msg) →
      lookupA (register_capabilities enf catalog caps).1 cid = lookupA catalog cid ∧
      cid ∉ (register_capabilities enf catalog caps).2) := by
  constructor
  · intro reg opId op inputs e http hop
    simp [invoke_with, hop]
  · intro enf catalog caps cid h
    refine register_capabilities_skips enf catalog caps cid ?_
    intro c hc he
    obtain ⟨msg, hmsg⟩ := h c hc he
    simp [cap_allowed, hmsg]

/-- C2 (witness). -/
theorem C2_enforcement_failsafe_witness :
    invoke_with [("op_plain", op_plain)] (fun _ _ _ => Except.error "kernel down")
        "op_plain" [] (HttpResult.resp 200 "ok") =
      ({ operator_id := "op_plain", inputs := [], success := false,
         error := some ("Kernel enforcement error: " ++ "kernel down") }, false) ∧
    lookupA (register_capabilities (fun _ => Except.error "kernel down")
        ([] : List (String × Capability)) [cap_one]).1 "cap1" = none ∧
    "cap1" ∉ (register_capabilities (fun _ => Except.error "kernel down")
        ([] : List (String × Capability)) [cap_one]).2 := by
  have h1 := C2_enforcement_failsafe.1 [("op_plain", op_plain)] "op_plain" op_plain
    [] "kernel down" (HttpResult.resp 200 "ok") (by decide)
  have h2 := C2_enforcement_failsafe.2 (fun _ => Except.error "kernel down")
    [] [cap_one] "cap1" (fun c hc he => ⟨"kernel down", rfl⟩)
  exact ⟨h1, h2.1.trans rfl, h2.2⟩

/-- C3 (code bug, evaluated at the failing input). Broadcasting a signal
with `ttl = 1` from `s1` in a two-slot network enqueues the clone with
`ttl = 0` into `s2`'s signal queue: the decremented TTL is `≤ 0`, yet the
signal is not dropped — `send_signal` contains no TTL check at all. -/
theorem C3_ttl_zero_enqueued :
    (lookupA (send_signal net_two sig_ttl1).slots "s2").map ReactiveSlot.signal_queue =
      some [{ sig_ttl1 with target_slot := some "s2", ttl := 0, path := ["s1"] }] ∧
    sig_ttl1.ttl - 1 ≤ 0 := by
  decide

/-- C4 (counterexample). `recall` with `tags = ["a", "b"]` returns
`mem_a`, which is indexed by tag `a` only: the implemented semantics is
union, not intersection. -/
theorem C4_intersection_counterexample :
    mem_a ∈ recall_by_tags mem_state ["a", "b"] none 10 ∧ "b" ∉ mem_a.tags := by
  decide

/-- C4 (amended). Tag recall has union semantics: on a consistently
indexed registry, every memory returned by the tag branch of `recall`
carries at least one of the requested tags (not necessarily all), and
satisfies the optional type filter. -/
theorem C4_tag_recall_union (st : MemtoolState) (tags : List String)
    (mt : Option String) (limit : Nat) (m : Memory)
    (hw : well_indexed st = true) (hm : m ∈ recall_by_tags st tags mt limit) :
    (∃ t ∈ tags, t ∈ m.tags) ∧ (∀ ty, mt = some ty → m.memory_type = ty) := by
  cases mt with
  | none =>
      simp only [recall_by_tags] at hm
      have hm2 := mem_sort_desc (List.take_subset _ _ hm)
      obtain ⟨mid, hmid, hlk⟩ := List.mem_filterMap.mp hm2
      rcases mem_tags_union hmid with h | h
      · simp at h
      · obtain ⟨tag, htag, mids, hidx, hmm⟩ := h
        exact ⟨⟨tag, htag, well_indexed_spec hw hidx hmm hlk⟩,
          fun ty h' => by cases h'⟩
  | some ty =>
      simp only [recall_by_tags] at hm
      have hm2 := mem_sort_desc (List.take_subset _ _ hm)
      have hfil := List.mem_filter.mp hm2
      obtain ⟨mid, hmid, hlk⟩ := List.mem_filterMap.mp hfil.1
      rcases mem_tags_union hmid with h | h
      · simp at h
      · obtain ⟨tag, htag, mids, hidx, hmm⟩ := h
        refine ⟨⟨tag, htag, well_indexed_spec hw hidx hmm hlk⟩, ?_⟩
        intro ty' h'
        cases h'
        simpa using hfil.2

/-- C4 (witness for the amended theorem). -/
theorem C4_tag_recall_union_witness :
    ∃ t ∈ (["a", "b"] : List String), t ∈ mem_ab.tags := by
  have h := C4_tag_recall_union mem_state ["a", "b"] none 10 mem_ab
    (by decide) (by decide)
  exact h.1

/-- C5 (counterexample). Revocation is not terminal: `suspend_key` does
not check the current status, so revoke → suspend → reactivate ends with
the key record ACTIVE and `reactivate_key` returning True, contradicting
"stays REVOKED forever" and "reactivate_key returns False". -/
theorem C5_terminal_counterexample :
    (revoke_key km_created 0).1 = true ∧
    (lookupA km_revoked.keys 0).map APIKey.status = some KeyStatus.REVOKED ∧
    (suspend_key km_revoked 0).1 = true ∧
    (reactivate_key km_suspended 0).1 = true ∧
    (lookupA (reactivate_key km_suspended 0).2.keys 0).map APIKey.status =
      some KeyStatus.ACTIVE := by
  decide

/-- C5 (amended). After `revoke_key` succeeds on a key, the original raw
secret never re-verifies in any subsequent state — `verify_key` returns
`(none, "Key not found")` after every further operation sequence; and as
long as no `suspend_key` is applied to that key id, its status stays
REVOKED and `reactivate_key` keeps returning False. (`suspend_key`
overwrites REVOKED with SUSPENDED, which is what the counterexample
exploits; the raw secret stays dead even then.) -/
theorem C5_revocation_amended
    (st₀ : KeyManagerState) (kid : Nat) (K : APIKey) (ops : List KMOp) (now : Int)
    (hk : lookupA st₀.keys kid = some K)
    (hkid : kid < st₀.nonce) (hraw : K.key_hash < st₀.nonce) :
    (revoke_key st₀ kid).1 = true ∧
    verify_key (runKMOps (revoke_key st₀ kid).2 ops) K.key_hash now =
      (none, "Key not found") ∧
    (KMOp.suspendKey kid ∉ ops →
      (lookupA (runKMOps (revoke_key st₀ kid).2 ops).keys kid).map APIKey.status =
        some KeyStatus.REVOKED ∧
      (reactivate_key (runKMOps (revoke_key st₀ kid).2 ops) kid).1 = false) := by
  have hrev1 : (revoke_key st₀ kid).1 = true := by simp [revoke_key, get_key, hk]
  have hst : (revoke_key st₀ kid).2 =
      { st₀ with
          keys := insertA st₀.keys kid { K with status := .REVOKED }
          keys_by_hash := eraseA st₀.keys_by_hash K.key_hash } := by
    simp [revoke_key, get_key, hk]
  have hdead : raw_dead (revoke_key st₀ kid).2 K.key_hash := by
    rw [hst]
    exact ⟨lookupA_eraseA_self _ _, hraw⟩
  have hrv : revoked_rec (revoke_key st₀ kid).2 kid := by
    rw [hst]
    refine ⟨?_, hkid⟩
    show (lookupA (insertA st₀.keys kid _) kid).map APIKey.status = _
    rw [lookupA_insertA_self]
    rfl
  refine ⟨hrev1, verify_key_of_dead (raw_dead_run hdead ops) now, fun hs => ?_⟩
  have hrun := revoked_rec_run hrv hs
  exact ⟨hrun.1, reactivate_of_revoked hrun⟩

/-- C5 (witness for the amended theorem). -/
theorem C5_revocation_amended_witness :
    (revoke_key km_created 0).1 = true ∧
    verify_key (runKMOps (revoke_key km_created 0).2
        [KMOp.reactivateKey 0, KMOp.rotateKey 0]) 0 5 = (none, "Key not found") ∧
    ((lookupA (runKMOps (revoke_key km_created 0).2
          [KMOp.reactivateKey 0, KMOp.rotateKey 0]).keys 0).map APIKey.status =
        some KeyStatus.REVOKED ∧
      (reactivate_key (runKMOps (revoke_key km_created 0).2
          [KMOp.reactivateKey 0, KMOp.rotateKey 0]) 0).1 = false) := by
  have h := C5_revocation_amended km_created 0 key0
    [KMOp.reactivateKey 0, KMOp.rotateKey 0] 5 (by decide) (by decide) (by decide)
  exact ⟨h.1, h.2.1, h.2.2 (by decide)⟩

/-- C6 (counterexample). The stats update is not a single EMA per
statistic: starting from `avg_latency_ms = 50`, `success_rate = 1`, a
failed invocation with latency 100 leaves `avg_latency_ms = 64` and
`success_rate = 171/200 = 0.855`, whereas the claim's single EMAs
(α = 0.2 latency, α = 0.05 success) would give 60 and 19/20 = 0.95. -/
theorem C6_single_ema_counterexample :
    (registry_update_stats op_stats false 100 7).avg_latency_ms = 64 ∧
    (update_stats_spec op_stats false 100 7).avg_latency_ms = 60 ∧
    (registry_update_stats op_stats false 100 7).success_rate = 171/200 ∧
    (update_stats_spec op_stats false 100 7).success_rate = 19/20 ∧
    ((64 : ℚ) ≠ 60) ∧ ((171/200 : ℚ) ≠ 19/20) := by
  refine ⟨?_, ?_, ?_, ?_, by norm_num, by norm_num⟩ <;>
    norm_num [registry_update_stats, update_stats, update_stats_spec, op_stats]

/-- C6 (amended). What one completed invocation actually does to the
operator's statistics: `update_stats` first applies α = 0.1 EMAs to both
success rate and latency (latency set directly when the stored average is
0) and computes the consistency score from that intermediate success rate
and the incremented call count; the registry then sets `last_used = now`,
applies a second latency EMA with α = 0.2, and a second success update
`0.95·rate + (0.05 if success else 0)`. `call_count` rises by exactly 1. -/
theorem C6_stats_two_stage (op : OperatorSignature) (success : Bool) (l : ℚ) (now : Int) :
    registry_update_stats op success l now =
      { op with
          call_count := op.call_count + 1
          last_used := now
          avg_latency_ms := 1/5 * l + 4/5 *
            (if op.avg_latency_ms = 0 then l
             else 9/10 * op.avg_latency_ms + 1/10 * l)
          success_rate := 19/20 * (9/10 * op.success_rate + (if success then 1/10 else 0)) +
            (if success then 1/20 else 0)
          consistency_score := (9/10 * op.success_rate + (if success then 1/10 else 0)) *
            (if op.call_count + 1 > 5 then 1 else 1/2) } := by
  simp only [registry_update_stats, update_stats]
  cases success <;> split_ifs <;> simp_all <;>
    refine ⟨by ring, by ring, Or.inl (by norm_num)⟩

/-- C7. `rotate_key` on an existing key (whose policy still exists, as
`create_key` guaranteed at issuance) returns a successor with the same
`policy_id`, `scope` and `owner_id`; afterwards the old key is REVOKED
and the successor is stored ACTIVE. -/
theorem C7_rotate_key (st : KeyManagerState) (kid : Nat) (K : APIKey)
    (hk : lookupA st.keys kid = some K) (hp : K.policy_id ∈ st.policies)
    (hn : kid < st.nonce) :
    ∃ K' raw st',
      rotate_key st kid = (some (K', raw), st') ∧
      K'.policy_id = K.policy_id ∧ K'.scope = K.scope ∧ K'.owner_id = K.owner_id ∧
      K'.status = KeyStatus.ACTIVE ∧
      (lookupA st'.keys kid).map APIKey.status = some KeyStatus.REVOKED ∧
      lookupA st'.keys K'.key_id = some K' := by
  have hne : st.nonce ≠ kid := by omega
  simp only [rotate_key, get_key, hk, create_key, if_pos hp, revoke_key,
    lookupA_insertA_ne _ _ _ _ hne]
  refine ⟨_, st.nonce, _, rfl, rfl, rfl, rfl, rfl, ?_, ?_⟩
  · rw [lookupA_insertA_self]
    rfl
  · show lookupA (insertA _ kid _) st.nonce = _
    rw [lookupA_insertA_ne _ _ _ _ (by omega), lookupA_insertA_self]

/-- C7 (witness). -/
theorem C7_rotate_key_witness :
    ∃ K' raw st',
      rotate_key km_created 0 = (some (K', raw), st') ∧
      K'.policy_id = key0.policy_id ∧ K'.scope = key0.scope ∧
      K'.owner_id = key0.owner_id ∧ K'.status = KeyStatus.ACTIVE ∧
      (lookupA st'.keys 0).map APIKey.status = some KeyStatus.REVOKED ∧
      lookupA st'.keys K'.key_id = some K' :=
  C7_rotate_key km_created 0 key0 (by decide) (by decide) (by decide)

/-- C8. Once the lazily-reset windows are current, a request that finds
any window counter at or above its policy limit is refused with a
rate-limit reason and no counter is incremented (the stored record is
exactly the reset record); counters move — each by exactly 1 — only on
requests that return `(true, "OK")`. -/
theorem C8_rate_limit_no_increment (rl : RLEntry) (limits : RateLimit) (now : Int) :
    ((reset_windows rl now).minute.count ≥ limits.requests_per_minute ∨
     (reset_windows rl now).hour.count ≥ limits.requests_per_hour ∨
     (reset_windows rl now).day.count ≥ limits.requests_per_day →
      (check_rate_limit rl limits now).1 = false ∧
      (check_rate_limit rl limits now).2.2 = reset_windows rl now) ∧
    ((check_rate_limit rl limits now).1 = true →
      (check_rate_limit rl limits now).2.1 = "OK" ∧
      (check_rate_limit rl limits now).2.2.minute.count =
        (reset_windows rl now).minute.count + 1 ∧
      (check_rate_limit rl limits now).2.2.hour.count =
        (reset_windows rl now).hour.count + 1 ∧
      (check_rate_limit rl limits now).2.2.day.count =
        (reset_windows rl now).day.count + 1) := by
  unfold check_rate_limit
  by_cases h1 : (reset_windows rl now).minute.count ≥ limits.requests_per_minute
  · simp [h1]
  · by_cases h2 : (reset_windows rl now).hour.count ≥ limits.requests_per_hour
    · simp [h1, h2]
    · by_cases h3 : (reset_windows rl now).day.count ≥ limits.requests_per_day
      · simp [h1, h2, h3]
      · simp [h1, h2, h3]

/-- C8 (witness). -/
theorem C8_rate_limit_no_increment_witness :
    (check_rate_limit rl_full {} 0).1 = false ∧
    (check_rate_limit rl_full {} 0).2.2 = reset_windows rl_full 0 :=
  (C8_rate_limit_no_increment rl_full {} 0).1 (by decide)

/-- C9. AuthToken round-trip: decoding an encoded token under the same
secret returns the token — all seven fields — exactly when the token is
not expired, and `none` when it is. -/
theorem C9_token_roundtrip (t : AuthToken) (s : String) (now : Int) :
    AuthToken.decode (t.encode s) s now = if t.is_expired now then none else some t := by
  simp only [AuthToken.decode, AuthToken.encode, AuthToken.is_expired,
    AuthToken.to_dict, AuthToken.from_dict]
  by_cases h : t.expires_at < now
  · simp [h, show now > t.expires_at from h]
  · simp [h, show ¬now > t.expires_at from h]

/-- C10. `EmergentNetwork.invoke_operator` never rejects on the slot's
`operator_ids` list: for an existing slot, the response is exactly the
registry invocation's outcome (success or exception), and a missing
operator id has been appended to the slot's list — the list is a growing
record, not an access restriction. -/
theorem C10_operator_ids_grow (net : NetworkState) (slot_id operator_id : String)
    (slot : ReactiveSlot) (res : Except String OperatorInvocation)
    (hs : lookupA net.slots slot_id = some slot) :
    (network_invoke_operator net slot_id operator_id res).1 =
      (match res with
       | .ok r => { success := r.success, outputs := r.outputs, error := r.error }
       | .error e => { success := false, outputs := none, error := some e }) ∧
    (lookupA (network_invoke_operator net slot_id operator_id res).2.slots
        slot_id).map ReactiveSlot.operator_ids =
      some (if operator_id ∈ slot.operator_ids then slot.operator_ids
            else slot.operator_ids ++ [operator_id]) ∧
    operator_id ∈ (if operator_id ∈ slot.operator_ids then slot.operator_ids
                   else slot.operator_ids ++ [operator_id]) := by
  by_cases hmem : operator_id ∈ slot.operator_ids
  · cases res <;>
      simp [network_invoke_operator, hs, hmem, lookupA_insertA_self]
  · cases res <;>
      simp [network_invoke_operator, hs, hmem, lookupA_insertA_self]

/-- C10 (witness). -/
theorem C10_operator_ids_grow_witness :
    (network_invoke_operator net_two "s1" "opX"
        (Except.ok { operator_id := "opX", inputs := [], success := true })).1 =
      { success := true, outputs := none, error := none } ∧
    (lookupA (network_invoke_operator net_two "s1" "opX"
        (Except.ok { operator_id := "opX", inputs := [], success := true })).2.slots
        "s1").map ReactiveSlot.operator_ids = some ["opX"] := by
  have h := C10_operator_ids_grow net_two "s1" "opX" slot_s1
    (Except.ok { operator_id := "opX", inputs := [], success := true }) (by decide)
  exact ⟨h.1, by simpa [slot_s1] using h.2.1⟩

end Binetic
